import Mathlib

/-!
Verification of the atomic unified-diff application engine
(`src/akita/tools/diff.py`, `DiffApplier.apply_unified_diff`).

The filesystem is modelled as an association list from resolved paths
(segment lists) to file contents (strings).  Only LF line separators are
modelled, matching every content exercised by the repository's tests.
Directory creation (`mkdir`) has no observable effect in a file-content
model and is therefore omitted.  The hunk-application and parsing work the
code delegates to the external `whatthepatch` library (not part of src/)
is modelled from the spec, sections 4.1 and 4.4.
-/

namespace Akita

/-- A resolved filesystem path, as a list of path segments below the root. -/
abbrev Path := List String

/-- The filesystem: an association list from paths to file contents.
A later write shadows earlier entries; `read` returns the first match. -/
abbrev FS := List (Path × String)

/-- Read a file: first matching entry, `none` when the file does not exist. -/
def FS.read (fs : FS) (p : Path) : Option String :=
  (fs.find? (fun e => decide (e.1 = p))).map (fun e => e.2)

/-- Write (create or overwrite) a file. -/
def FS.write (fs : FS) (p : Path) (c : String) : FS :=
  (p, c) :: fs

/-- Delete a file (`Path.unlink` / the removal half of `shutil.move`). -/
def FS.del (fs : FS) (p : Path) : FS :=
  fs.filter (fun e => !decide (e.1 = p))

/-- Tag of one line of a hunk body (` `, `+`, `-`). -/
inductive Tag where
  | context
  | add
  | delete
  deriving DecidableEq, Repr

/-- One tagged body line of a hunk. -/
structure HLine where
  tag : Tag
  text : String
  deriving DecidableEq, Repr

/-- One hunk: `@@ -old_start,old_count +new_start,new_count @@` plus body. -/
structure Hunk where
  old_start : Nat
  old_count : Nat
  new_start : Nat
  new_count : Nat
  lines : List HLine
  deriving DecidableEq, Repr

/-- A patch header: the `---` and `+++` file references.
`none` models a Python `None` field; the string "/dev/null" is the
non-existent-file sentinel. -/
structure Header where
  old_path : Option String
  new_path : Option String
  deriving DecidableEq, Repr

/-- One parsed patch, as produced by the diff parser:
an optional header and the hunks for that file. -/
structure Patch where
  header : Option Header
  hunks : List Hunk
  deriving DecidableEq, Repr

/-- The backup store of one transaction, in mutation order:
each entry is a target path with either the path of its on-disk backup
copy or `none` (the "did not previously exist" marker). -/
abbrev Backups := List (Path × Option Path)

/-- Python truthiness of `x or y` on optional strings:
`x` when it is a non-empty string, otherwise `y`
(embeds `patch.header.new_path or patch.header.old_path`). -/
def pyOr (a b : Option String) : Option String :=
  match a with
  | some s => if s = "" then b else some s
  | none => b

/-- Split a character list at every occurrence of the separator
(helper for the string splitting the code performs). -/
def chSplit (sep : Char) : List Char → List (List Char)
  | [] => [[]]
  | c :: cs =>
    match chSplit sep cs with
    | [] => [[c]]
    | w :: ws => if c = sep then [] :: w :: ws else (c :: w) :: ws

/-- `str.split(sep)` for a one-character separator. -/
def strSplit (s : String) (sep : Char) : List String :=
  (chSplit sep s.data).map (fun l => String.mk l)

/-- `str.startswith(pre)`. -/
def strStartsWith (s t : String) : Bool :=
  t.data.isPrefixOf s.data

/-- `str.splitlines` for LF-separated text: one trailing newline is not a
separator of an extra empty line, and the empty string has no lines. -/
def pySplitlines (s : String) : List String :=
  if s = "" then []
  else strSplit (if s.data.getLast? = some '\n' then String.mk s.data.dropLast else s) '\n'

/-- Strip a single leading `a/` or `b/` diff-tool artifact
(embeds `if rel_path.startswith("a/") or rel_path.startswith("b/")`). -/
def stripAB (s : String) : String :=
  if strStartsWith s "a/" || strStartsWith s "b/" then String.mk (s.data.drop 2) else s

/-- One step of `Path.resolve` segment processing: `..` pops a segment,
`.` and empty segments are dropped, any other segment is appended. -/
def resolveSeg (acc : Path) (seg : String) : Path :=
  if seg = ".." then acc.dropLast
  else if seg = "." || seg = "" then acc
  else acc ++ [seg]

/-- `(base / rel).resolve()` for a relative reference `rel`:
fold the slash-separated segments of `rel` onto `base`. -/
def resolvePath (base : Path) (rel : String) : Path :=
  (strSplit rel '/').foldl resolveSeg base

/-- `Path.name`: the final path segment. -/
def lastName (p : Path) : String :=
  p.getLast?.getD ""

/-- `"\n".join(lines)` (Python str.join with the LF separator). -/
def joinNL : List String → String
  | [] => ""
  | [s] => s
  | s :: rest => s ++ ("\n" ++ joinNL rest)

/-- The path-selection prelude of the per-patch loop (diff.py lines 26-50):
skip a header-less patch, choose the file reference by the `/dev/null`
classification, skip an unusable reference (empty or sentinel), strip the
`a/`/`b/` artifact and resolve against the base directory.  Returns the
resolved target together with the `is_new` flag, or `none` when the loop
`continue`s past the patch. -/
def patchPlan (base : Path) (p : Patch) : Option (Path × Bool) :=
  match p.header with
  | none => none
  | some h =>
    let is_new := decide (h.old_path = some "/dev/null")
    let is_delete := decide (h.new_path = some "/dev/null")
    let rel? := if is_new then h.new_path
                else if is_delete then h.old_path
                else pyOr h.new_path h.old_path
    match rel? with
    | none => none
    | some rel =>
      if rel = "" || rel = "/dev/null" then none
      else some (resolvePath base (stripAB rel), is_new)

/-- The resolved target of a patch, when the loop does not skip it. -/
def patchTarget (base : Path) (p : Patch) : Option Path :=
  (patchPlan base p).map (fun x => x.1)

/-- Modelled from the spec: the hunk-body walk of section 4.4, which the
code delegates to `whatthepatch.apply_diff` (the library is not in src/).
A `context` or `delete` line must equal the original line at the cursor
(strict equality); `add` lines go to the output without consuming input. -/
def walkLines (orig : List String) : List HLine → Nat → List String → Option (Nat × List String)
  | [], c, out => some (c, out)
  | l :: ls, c, out =>
    match l.tag with
    | Tag.add => walkLines orig ls c (out ++ [l.text])
    | Tag.context =>
      match orig.get? c with
      | some s => if s = l.text then walkLines orig ls (c + 1) (out ++ [l.text]) else none
      | none => none
    | Tag.delete =>
      match orig.get? c with
      | some s => if s = l.text then walkLines orig ls (c + 1) out else none
      | none => none

/-- Modelled from the spec: section 4.4 hunk application over all hunks.
Before each hunk, lines between the cursor and `old_start - 1` are copied
verbatim; after the last hunk the remaining lines are copied. -/
def applyHunksAux (orig : List String) : List Hunk → Nat → List String → Option (List String)
  | [], c, out => some (out ++ orig.drop c)
  | h :: hs, c, out =>
    let out1 := out ++ (orig.drop c).take (h.old_start - 1 - c)
    match walkLines orig h.lines (h.old_start - 1) out1 with
    | none => none
    | some (c1, out2) => applyHunksAux orig hs c1 out2

/-- Modelled from the spec: apply a patch's hunks to the original lines,
`none` on any context/delete mismatch (`whatthepatch.apply_diff` failure,
which the code turns into the rollback-triggering exception). -/
def applyHunks (hunks : List Hunk) (orig : List String) : Option (List String) :=
  applyHunksAux orig hunks 0 []

/-- The rollback loop of the `except` handler (diff.py lines 88-92):
iterate the recorded backups IN MUTATION ORDER; an entry with a backup
path whose backup file still exists is `shutil.move`d back onto the
target; an entry with the `none` marker whose target exists is unlinked. -/
def rollback (fs : FS) : Backups → FS
  | [] => fs
  | (t, b?) :: rest =>
    rollback
      (match b? with
       | some b =>
         match fs.read b with
         | some c => (fs.write t c).del b
         | none => fs
       | none =>
         match fs.read t with
         | some _ => fs.del t
         | none => fs)
      rest

/-- Outcome of one iteration of the per-patch loop:
`cont` proceeds to the next patch (also used for a `continue`),
`fail` is the bare `return False` (no rollback),
`raise` is an exception that triggers the rollback handler. -/
inductive StepOut where
  | cont (fs : FS) (bks : Backups)
  | fail (fs : FS)
  | raise (fs : FS) (bks : Backups)
  deriving Repr

/-- One iteration of the per-patch loop (diff.py lines 25-84):
resolve the target; reject a missing target of a non-create patch with a
bare `return False`; copy the existing content to
`<backup_dir>/<name>.bak` (or record the `none` marker); read, split and
patch the content; on success write the joined lines plus one trailing
newline, on hunk failure raise. -/
def step (base bdir : Path) (p : Patch) (fs : FS) (bks : Backups) : StepOut :=
  match patchPlan base p with
  | none => StepOut.cont fs bks
  | some (target, is_new) =>
    if is_new = false ∧ fs.read target = none then StepOut.fail fs
    else
      match fs.read target with
      | some c =>
        let bfile := bdir ++ [lastName target ++ ".bak"]
        let fs1 := fs.write bfile c
        let bks1 := bks ++ [(target, some bfile)]
        let content := (fs1.read target).getD ""
        match applyHunks p.hunks (pySplitlines content) with
        | none => StepOut.raise fs1 bks1
        | some out => StepOut.cont (fs1.write target (joinNL out ++ "\n")) bks1
      | none =>
        let bks1 := bks ++ [(target, none)]
        match applyHunks p.hunks (pySplitlines "") with
        | none => StepOut.raise fs bks1
        | some out => StepOut.cont (fs.write target (joinNL out ++ "\n")) bks1

/-- The patch loop: on normal exhaustion return success; a bare
`return False` ends the call with the filesystem as it stands; an
exception runs the rollback handler and returns failure. -/
def runPatches (base bdir : Path) : List Patch → FS → Backups → Bool × FS
  | [], fs, _ => (true, fs)
  | p :: ps, fs, bks =>
    match step base bdir p fs bks with
    | StepOut.cont fs1 bks1 => runPatches base bdir ps fs1 bks1
    | StepOut.fail fs1 => (false, fs1)
    | StepOut.raise fs1 bks1 => (false, rollback fs1 bks1)

/-- `DiffApplier.apply_unified_diff`, over already-parsed patches:
fail immediately on an empty patch list, otherwise run the loop with the
backup directory `<base>/.akita/backups` and an empty backup store. -/
def apply_unified_diff (patches : List Patch) (base : Path) (fs : FS) : Bool × FS :=
  if patches.isEmpty then (false, fs)
  else runPatches base (base ++ [".akita", "backups"]) patches fs []

/-! ### Basic filesystem lemmas -/

theorem FS.read_write_self (fs : FS) (p : Path) (c : String) :
    (fs.write p c).read p = some c := by
  simp [FS.read, FS.write]

theorem FS.read_write_ne (fs : FS) (p q : Path) (c : String) (h : q ≠ p) :
    (fs.write p c).read q = fs.read q := by
  simp [FS.read, FS.write, List.find?_cons, Ne.symm h]

theorem find_filter_self (p : Path) (fs : FS) :
    List.find? (fun e => decide (e.1 = p)) (fs.filter (fun e => !decide (e.1 = p))) = none := by
  induction fs with
  | nil => rfl
  | cons e fs ih =>
    by_cases h1 : e.1 = p
    · rw [List.filter_cons_of_neg (by simp [h1])]
      exact ih
    · rw [List.filter_cons_of_pos (by simp [h1]), List.find?_cons_of_neg _ (by simp [h1])]
      exact ih

theorem find_filter_ne (p q : Path) (h : q ≠ p) (fs : FS) :
    List.find? (fun e => decide (e.1 = q)) (fs.filter (fun e => !decide (e.1 = p)))
      = List.find? (fun e => decide (e.1 = q)) fs := by
  induction fs with
  | nil => rfl
  | cons e fs ih =>
    by_cases h1 : e.1 = p
    · have h2 : ¬ e.1 = q := by rw [h1]; exact Ne.symm h
      rw [List.filter_cons_of_neg (by simp [h1]), List.find?_cons_of_neg _ (by simp [h2]), ih]
    · by_cases h2 : e.1 = q
      · rw [List.filter_cons_of_pos (by simp [h1]), List.find?_cons_of_pos _ (by simp [h2]),
          List.find?_cons_of_pos _ (by simp [h2])]
      · rw [List.filter_cons_of_pos (by simp [h1]), List.find?_cons_of_neg _ (by simp [h2]),
          List.find?_cons_of_neg _ (by simp [h2]), ih]

theorem FS.read_del_self (fs : FS) (p : Path) : (fs.del p).read p = none := by
  unfold FS.read FS.del
  rw [find_filter_self]
  rfl

theorem FS.read_del_ne (fs : FS) (p q : Path) (h : q ≠ p) :
    (fs.del p).read q = fs.read q := by
  unfold FS.read FS.del
  rw [find_filter_ne p q h]

/-! ### Path lemmas -/

theorem lastName_concat (l : Path) (s : String) : lastName (l ++ [s]) = s := by
  simp [lastName, List.getLast?_concat]

/-- A target file is never its own backup artifact: the backup name
appends the ".bak" suffix. -/
theorem target_ne_bak (t bdir : Path) : t ≠ bdir ++ [lastName t ++ ".bak"] := by
  intro h
  have h2 : lastName t = lastName t ++ ".bak" := by
    conv_lhs => rw [h]
    rw [lastName_concat]
  have h3 := congrArg String.length h2
  rw [String.length_append] at h3
  have h4 : (".bak" : String).length = 4 := rfl
  omega

theorem append_cancel_ne (l : Path) (a b : List String) (h : a ≠ b) : l ++ a ≠ l ++ b :=
  fun he => h (List.append_cancel_left he)

/-! ### Characterization of one loop iteration -/

theorem step_skip (base bdir : Path) (p : Patch) (fs : FS) (bks : Backups)
    (hplan : patchPlan base p = none) :
    step base bdir p fs bks = StepOut.cont fs bks := by
  unfold step; rw [hplan]

theorem step_missing (base bdir t : Path) (p : Patch) (fs : FS) (bks : Backups)
    (hplan : patchPlan base p = some (t, false))
    (hread : fs.read t = none) :
    step base bdir p fs bks = StepOut.fail fs := by
  simp only [step, hplan, hread, and_true, if_pos, and_self, if_true]

theorem step_exists_ok (base bdir t : Path) (isn : Bool) (p : Patch) (fs : FS) (bks : Backups)
    (c : String) (out : List String)
    (hplan : patchPlan base p = some (t, isn))
    (hread : fs.read t = some c)
    (happ : applyHunks p.hunks (pySplitlines c) = some out) :
    step base bdir p fs bks =
      StepOut.cont
        ((fs.write (bdir ++ [lastName t ++ ".bak"]) c).write t (joinNL out ++ "\n"))
        (bks ++ [(t, some (bdir ++ [lastName t ++ ".bak"]))]) := by
  have hre : (fs.write (bdir ++ [lastName t ++ ".bak"]) c).read t = some c := by
    rw [FS.read_write_ne _ _ _ _ (target_ne_bak t bdir)]; exact hread
  simp only [step, hplan, hread, hre, Option.getD_some, happ, and_false, if_false,
    reduceCtorEq, Bool.false_eq_true]

theorem step_exists_raise (base bdir t : Path) (isn : Bool) (p : Patch) (fs : FS) (bks : Backups)
    (c : String)
    (hplan : patchPlan base p = some (t, isn))
    (hread : fs.read t = some c)
    (happ : applyHunks p.hunks (pySplitlines c) = none) :
    step base bdir p fs bks =
      StepOut.raise (fs.write (bdir ++ [lastName t ++ ".bak"]) c)
        (bks ++ [(t, some (bdir ++ [lastName t ++ ".bak"]))]) := by
  have hre : (fs.write (bdir ++ [lastName t ++ ".bak"]) c).read t = some c := by
    rw [FS.read_write_ne _ _ _ _ (target_ne_bak t bdir)]; exact hread
  simp only [step, hplan, hread, hre, Option.getD_some, happ, and_false, if_false,
    reduceCtorEq, Bool.false_eq_true]

theorem step_create_ok (base bdir t : Path) (p : Patch) (fs : FS) (bks : Backups)
    (out : List String)
    (hplan : patchPlan base p = some (t, true))
    (hread : fs.read t = none)
    (happ : applyHunks p.hunks (pySplitlines "") = some out) :
    step base bdir p fs bks =
      StepOut.cont (fs.write t (joinNL out ++ "\n")) (bks ++ [(t, none)]) := by
  simp only [step, hplan, hread, happ, Bool.true_eq_false, false_and, if_false,
    reduceCtorEq]

theorem step_create_raise (base bdir t : Path) (p : Patch) (fs : FS) (bks : Backups)
    (hplan : patchPlan base p = some (t, true))
    (hread : fs.read t = none)
    (happ : applyHunks p.hunks (pySplitlines "") = none) :
    step base bdir p fs bks = StepOut.raise fs (bks ++ [(t, none)]) := by
  simp only [step, hplan, hread, happ, Bool.true_eq_false, false_and, if_false,
    reduceCtorEq]

/-! ### Characterization of the loop -/

theorem runPatches_nil (base bdir : Path) (fs : FS) (bks : Backups) :
    runPatches base bdir [] fs bks = (true, fs) := rfl

theorem runPatches_cons_eq (base bdir : Path) (p : Patch) (ps : List Patch)
    (fs : FS) (bks : Backups) :
    runPatches base bdir (p :: ps) fs bks =
      match step base bdir p fs bks with
      | StepOut.cont fs1 bks1 => runPatches base bdir ps fs1 bks1
      | StepOut.fail fs1 => (false, fs1)
      | StepOut.raise fs1 bks1 => (false, rollback fs1 bks1) := rfl

theorem runPatches_cont (base bdir : Path) (p : Patch) (ps : List Patch)
    (fs fs1 : FS) (bks bks1 : Backups)
    (h : step base bdir p fs bks = StepOut.cont fs1 bks1) :
    runPatches base bdir (p :: ps) fs bks = runPatches base bdir ps fs1 bks1 := by
  rw [runPatches_cons_eq, h]

theorem runPatches_fail (base bdir : Path) (p : Patch) (ps : List Patch)
    (fs fs1 : FS) (bks : Backups)
    (h : step base bdir p fs bks = StepOut.fail fs1) :
    runPatches base bdir (p :: ps) fs bks = (false, fs1) := by
  rw [runPatches_cons_eq, h]

theorem runPatches_raise (base bdir : Path) (p : Patch) (ps : List Patch)
    (fs fs1 : FS) (bks bks1 : Backups)
    (h : step base bdir p fs bks = StepOut.raise fs1 bks1) :
    runPatches base bdir (p :: ps) fs bks = (false, rollback fs1 bks1) := by
  rw [runPatches_cons_eq, h]

theorem apply_cons (p : Patch) (ps : List Patch) (base : Path) (fs : FS) :
    apply_unified_diff (p :: ps) base fs =
      runPatches base (base ++ [".akita", "backups"]) (p :: ps) fs [] := rfl

/-! ### Rollback only touches recorded targets and backup artifacts -/

theorem rollback_read_of_notin (q : Path) :
    ∀ (bks : Backups) (fs : FS),
      (∀ e ∈ bks, e.1 ≠ q ∧ ∀ b, e.2 = some b → b ≠ q) →
      (rollback fs bks).read q = fs.read q := by
  intro bks
  induction bks with
  | nil => intro fs _; rfl
  | cons e rest ih =>
    intro fs hq
    obtain ⟨h1, h2⟩ := hq e (List.mem_cons_self e rest)
    have hrest : ∀ e ∈ rest, e.1 ≠ q ∧ ∀ b, e.2 = some b → b ≠ q :=
      fun e he => hq e (List.mem_cons_of_mem _ he)
    obtain ⟨t, b?⟩ := e
    cases b? with
    | none =>
      show (rollback (match fs.read t with
                      | some _ => fs.del t
                      | none => fs) rest).read q = fs.read q
      rw [ih _ hrest]
      cases hread : fs.read t with
      | none => simp
      | some c => simp [FS.read_del_ne _ _ _ (Ne.symm h1)]
    | some b =>
      have hb : b ≠ q := h2 b rfl
      show (rollback (match fs.read b with
                      | some c => (fs.write t c).del b
                      | none => fs) rest).read q = fs.read q
      rw [ih _ hrest]
      cases hread : fs.read b with
      | none => simp
      | some c =>
        simp [FS.read_del_ne _ _ _ (Ne.symm hb), FS.read_write_ne _ _ _ _ (Ne.symm h1)]

/-! ### Frame property: the loop only touches patch targets and backup artifacts -/

theorem runPatches_read_frame (base bdir q : Path) (hq : ¬ bdir <+: q) :
    ∀ (ps : List Patch) (fs : FS) (bks : Backups),
      (∀ p ∈ ps, patchTarget base p ≠ some q) →
      (∀ e ∈ bks, e.1 ≠ q ∧ ∀ b, e.2 = some b → bdir <+: b) →
      ((runPatches base bdir ps fs bks).2).read q = fs.read q := by
  intro ps
  induction ps with
  | nil => intro fs bks _ _; rfl
  | cons p ps ih =>
    intro fs bks hps hbks
    have hpt : patchTarget base p ≠ some q := hps p (List.mem_cons_self p ps)
    have hps1 : ∀ r ∈ ps, patchTarget base r ≠ some q :=
      fun r hr => hps r (List.mem_cons_of_mem _ hr)
    cases hplan : patchPlan base p with
    | none =>
      rw [runPatches_cont _ _ _ _ _ _ _ _ (step_skip _ _ _ _ _ hplan)]
      exact ih fs bks hps1 hbks
    | some pl =>
      obtain ⟨t, isn⟩ := pl
      have htq : t ≠ q := by
        intro he
        exact hpt (by simp [patchTarget, hplan, he])
      have hbf : bdir <+: bdir ++ [lastName t ++ ".bak"] := ⟨[lastName t ++ ".bak"], rfl⟩
      have hbfq : bdir ++ [lastName t ++ ".bak"] ≠ q := fun he => hq (he ▸ hbf)
      have hbks1 : ∀ e ∈ bks ++ [(t, some (bdir ++ [lastName t ++ ".bak"]))],
          e.1 ≠ q ∧ ∀ b, e.2 = some b → bdir <+: b := by
        intro e he
        rcases List.mem_append.mp he with h1 | h1
        · exact hbks e h1
        · rcases List.mem_singleton.mp h1 with rfl
          exact ⟨htq, fun b hb => (Option.some_inj.mp hb) ▸ hbf⟩
      have hbksrb : ∀ e ∈ bks ++ [(t, some (bdir ++ [lastName t ++ ".bak"]))],
          e.1 ≠ q ∧ ∀ b, e.2 = some b → b ≠ q := by
        intro e he
        obtain ⟨x, y⟩ := hbks1 e he
        exact ⟨x, fun b hb hc => hq (hc ▸ y b hb)⟩
      have hbks2 : ∀ e ∈ bks ++ [(t, (none : Option Path))],
          e.1 ≠ q ∧ ∀ b, e.2 = some b → bdir <+: b := by
        intro e he
        rcases List.mem_append.mp he with h1 | h1
        · exact hbks e h1
        · rcases List.mem_singleton.mp h1 with rfl
          exact ⟨htq, fun b hb => by cases hb⟩
      have hbks2rb : ∀ e ∈ bks ++ [(t, (none : Option Path))],
          e.1 ≠ q ∧ ∀ b, e.2 = some b → b ≠ q := by
        intro e he
        obtain ⟨x, y⟩ := hbks2 e he
        exact ⟨x, fun b hb hc => hq (hc ▸ y b hb)⟩
      cases hread : fs.read t with
      | none =>
        cases isn with
        | false =>
          rw [runPatches_fail _ _ _ _ _ _ _ (step_missing _ _ _ _ _ _ hplan hread)]
        | true =>
          cases happ : applyHunks p.hunks (pySplitlines "") with
          | none =>
            rw [runPatches_raise _ _ _ _ _ _ _ _ (step_create_raise _ _ _ _ _ _ hplan hread happ)]
            exact rollback_read_of_notin q _ fs hbks2rb
          | some out =>
            rw [runPatches_cont _ _ _ _ _ _ _ _ (step_create_ok _ _ _ _ _ _ _ hplan hread happ)]
            rw [ih _ _ hps1 hbks2]
            exact FS.read_write_ne _ _ _ _ htq.symm
      | some c =>
        cases happ : applyHunks p.hunks (pySplitlines c) with
        | none =>
          rw [runPatches_raise _ _ _ _ _ _ _ _ (step_exists_raise _ _ _ _ _ _ _ _ hplan hread happ)]
          rw [rollback_read_of_notin q _ _ hbksrb]
          exact FS.read_write_ne _ _ _ _ (fun he => hq (he ▸ hbf))
        | some out =>
          rw [runPatches_cont _ _ _ _ _ _ _ _ (step_exists_ok _ _ _ _ _ _ _ _ _ hplan hread happ)]
          rw [ih _ _ hps1 hbks1]
          rw [FS.read_write_ne _ _ _ _ htq.symm]
          exact FS.read_write_ne _ _ _ _ (fun he => hq (he ▸ hbf))

/-! ### Content-shape helpers -/

/-- The body lines of a pure-addition (file creation) hunk. -/
def addLines (ls : List String) : List HLine :=
  ls.map (fun s => ⟨Tag.add, s⟩)

/-- A file content consisting of the given lines, each followed by the
line separator. -/
def eachLine (ls : List String) : String :=
  ls.foldr (fun l acc => l ++ "\n" ++ acc) ""

theorem walkLines_addLines (orig : List String) (ls : List String) :
    ∀ (c : Nat) (out : List String),
      walkLines orig (addLines ls) c out = some (c, out ++ ls) := by
  induction ls with
  | nil => intro c out; simp [addLines, walkLines]
  | cons s ls ih =>
    intro c out
    show walkLines orig (⟨Tag.add, s⟩ :: addLines ls) c out = some (c, out ++ s :: ls)
    rw [show walkLines orig (⟨Tag.add, s⟩ :: addLines ls) c out
          = walkLines orig (addLines ls) c (out ++ [s]) from rfl]
    rw [ih c (out ++ [s])]
    simp

theorem applyHunks_addLines (ls : List String) :
    applyHunks [⟨0, 0, 1, ls.length, addLines ls⟩] [] = some ls := by
  show (match walkLines [] (addLines ls) 0 [] with
        | none => none
        | some (c1, out2) => applyHunksAux [] [] c1 out2) = some ls
  rw [walkLines_addLines]
  simp [applyHunksAux]

theorem joinNL_eachLine (ls : List String) (h : ls ≠ []) :
    joinNL ls ++ "\n" = eachLine ls := by
  induction ls with
  | nil => cases h rfl
  | cons a ls ih =>
    cases ls with
    | nil => simp [joinNL, eachLine, String.append_empty]
    | cons b ls2 =>
      rw [show joinNL (a :: b :: ls2) = a ++ ("\n" ++ joinNL (b :: ls2)) from rfl]
      rw [show eachLine (a :: b :: ls2) = a ++ "\n" ++ eachLine (b :: ls2) from rfl]
      rw [← ih (by simp)]
      simp [String.append_assoc]

/-! ### Concrete scenarios used by the claims -/

/-- A single-quote character, written via its code point. -/
def sq : String := (Char.ofNat 39).toString

def helloOld : String := "print(" ++ sq ++ "hello" ++ sq ++ ")"

def helloNew : String := "print(" ++ sq ++ "hello world" ++ sq ++ ")"

def helloFS : FS := [(["r", "hello.py"], helloOld ++ "\n")]

def helloPatch : Patch :=
  ⟨some ⟨some "hello.py", some "hello.py"⟩,
   [⟨1, 1, 1, 1, [⟨Tag.delete, helloOld⟩, ⟨Tag.add, helloNew⟩]⟩]⟩

/-! ### Claims -/

/-- C5 counterexample: a patch whose old and new references are both the
`/dev/null` sentinel does NOT make the call fail with `InvalidPathError`;
the loop silently `continue`s past it and the call returns success. -/
theorem C5_counterexample :
    apply_unified_diff [⟨some ⟨some "/dev/null", some "/dev/null"⟩, []⟩] ["r"] [] = (true, []) := rfl

/-- C5 amended: a patch whose header yields no usable target path (both
sides the sentinel) is silently skipped by the `continue` branch, and the
call returns success with the filesystem unchanged, for every filesystem
and base directory. -/
theorem C5_sentinel_skipped (fs : FS) (base : Path) (hs : List Hunk) :
    apply_unified_diff [⟨some ⟨some "/dev/null", some "/dev/null"⟩, hs⟩] base fs = (true, fs) := rfl

/-- C8: applying the single-patch diff that rewrites `print(~hello~)` to
`print(~hello world~)` to `hello.py` succeeds and leaves exactly the new
line plus one trailing separator. -/
theorem C8_hello_scenario :
    (apply_unified_diff [helloPatch] ["r"] helloFS).1 = true ∧
    (apply_unified_diff [helloPatch] ["r"] helloFS).2.read ["r", "hello.py"]
      = some (helloNew ++ "\n") :=
  ⟨by decide, by decide⟩

/-- C9 counterexample: a creation patch whose one hunk adds ZERO lines
(`@@ -0,0 +0,0 @@`, valid under the hunk count invariants) succeeds but
creates the file containing a single line separator, not the empty
content that "exactly the added lines, each followed by the separator"
prescribes: the code always writes the joined output plus one separator. -/
theorem C9_counterexample :
    (apply_unified_diff
        [⟨some ⟨some "/dev/null", some "new_file.py"⟩, [⟨0, 0, 0, 0, []⟩]⟩] ["r"] []).1 = true ∧
    (apply_unified_diff
        [⟨some ⟨some "/dev/null", some "new_file.py"⟩, [⟨0, 0, 0, 0, []⟩]⟩] ["r"] []).2.read
        ["r", "new_file.py"] = some "\n" ∧
    (apply_unified_diff
        [⟨some ⟨some "/dev/null", some "new_file.py"⟩, [⟨0, 0, 0, 0, []⟩]⟩] ["r"] []).2.read
        ["r", "new_file.py"] ≠ some (eachLine ([] : List String)) :=
  ⟨by decide, by decide, by decide⟩

/-- C9 amended: a single-patch diff with old side `/dev/null` and a
non-existent target succeeds and creates the target file; when the hunk
adds at least one line the content is exactly the added lines, each
followed by the line separator, and when the hunk adds no lines the
content is a single line separator (not the empty content). -/
theorem C9_creation (base : Path) (fs : FS) (ls : List String)
    (hread : fs.read (base ++ ["new_file.py"]) = none) :
    (apply_unified_diff
        [⟨some ⟨some "/dev/null", some "new_file.py"⟩, [⟨0, 0, 1, ls.length, addLines ls⟩]⟩]
        base fs).1 = true ∧
    (apply_unified_diff
        [⟨some ⟨some "/dev/null", some "new_file.py"⟩, [⟨0, 0, 1, ls.length, addLines ls⟩]⟩]
        base fs).2.read (base ++ ["new_file.py"])
      = some (if ls = [] then "\n" else eachLine ls) := by
  have hplan : patchPlan base ⟨some ⟨some "/dev/null", some "new_file.py"⟩,
      [⟨0, 0, 1, ls.length, addLines ls⟩]⟩ = some (base ++ ["new_file.py"], true) := rfl
  have happ : applyHunks [⟨0, 0, 1, ls.length, addLines ls⟩] (pySplitlines "") = some ls := by
    rw [show pySplitlines "" = [] from rfl]
    exact applyHunks_addLines ls
  rw [apply_cons]
  rw [runPatches_cont _ _ _ _ _ _ _ _ (step_create_ok _ _ _ _ _ _ _ hplan hread happ)]
  rw [runPatches_nil]
  refine ⟨rfl, ?_⟩
  rw [FS.read_write_self]
  by_cases hls : ls = []
  · subst hls
    rfl
  · rw [if_neg hls, joinNL_eachLine ls hls]

theorem C9_creation_witness :
    (FS.read [] (["r"] ++ ["new_file.py"]) = none) ∧
    ((apply_unified_diff
        [⟨some ⟨some "/dev/null", some "new_file.py"⟩, [⟨0, 0, 1, 1, addLines ["x"]⟩]⟩]
        ["r"] []).1 = true ∧
     (apply_unified_diff
        [⟨some ⟨some "/dev/null", some "new_file.py"⟩, [⟨0, 0, 1, 1, addLines ["x"]⟩]⟩]
        ["r"] []).2.read (["r"] ++ ["new_file.py"])
       = some (if (["x"] : List String) = [] then "\n" else eachLine ["x"])) :=
  ⟨by decide, C9_creation ["r"] [] ["x"] (by decide)⟩

/-- C10: any file under the base directory that is neither the resolved
target of some patch of the diff nor inside the `.akita/backups` backup
area has the same content after the call as before it, on success and on
failure alike. -/
theorem C10_frame (patches : List Patch) (base : Path) (fs : FS) (q : Path)
    (hunder : base <+: q)
    (htargets : ∀ p ∈ patches, patchTarget base p ≠ some q)
    (hbak : ¬ (base ++ [".akita", "backups"]) <+: q) :
    ((apply_unified_diff patches base fs).2).read q = fs.read q := by
  cases patches with
  | nil => rfl
  | cons p ps =>
    rw [apply_cons]
    exact runPatches_read_frame base _ q hbak (p :: ps) fs [] htargets
      (fun e he => absurd he (List.not_mem_nil e))

theorem C10_frame_witness :
    (((["r"] : Path) <+: ["r", "other.py"]) ∧
      (∀ p ∈ [helloPatch], patchTarget ["r"] p ≠ some ["r", "other.py"]) ∧
      ¬ ((["r"] ++ [".akita", "backups"] : Path) <+: ["r", "other.py"])) ∧
    ((apply_unified_diff [helloPatch] ["r"]
        [(["r", "hello.py"], helloOld ++ "\n"), (["r", "other.py"], "keep\n")]).2).read
        ["r", "other.py"]
      = FS.read [(["r", "hello.py"], helloOld ++ "\n"), (["r", "other.py"], "keep\n")]
          ["r", "other.py"] :=
  ⟨⟨by decide, by decide, by decide⟩,
   C10_frame [helloPatch] ["r"] _ ["r", "other.py"] (by decide) (by decide) (by decide)⟩

/-! ### C2: missing target after an earlier mutation -/

def c2FS : FS := [(["r", "f1.py"], "one\n")]

def c2Patch1 : Patch :=
  ⟨some ⟨some "f1.py", some "f1.py"⟩, [⟨1, 1, 1, 1, [⟨Tag.delete, "one"⟩, ⟨Tag.add, "ONE"⟩]⟩]⟩

def c2Patch2 : Patch :=
  ⟨some ⟨some "f2.py", some "f2.py"⟩, [⟨1, 1, 1, 1, [⟨Tag.delete, "two"⟩, ⟨Tag.add, "TWO"⟩]⟩]⟩

/-- C2 counterexample: the second patch targets the missing `f2.py`, the
call returns failure, but `f1.py` — mutated by the first patch — is left
with its patched content, not its pre-call content: the missing-target
branch is a bare `return False` that performs no rollback. -/
theorem C2_counterexample :
    (apply_unified_diff [c2Patch1, c2Patch2] ["r"] c2FS).1 = false ∧
    c2FS.read ["r", "f1.py"] = some "one\n" ∧
    (apply_unified_diff [c2Patch1, c2Patch2] ["r"] c2FS).2.read ["r", "f1.py"] = some "ONE\n" :=
  ⟨by decide, by decide, by decide⟩

/-- C2 amended: a modify patch against a missing target makes the call
return failure, and only when that patch comes before any mutating patch
is the filesystem left untouched; effects of earlier patches of the same
diff are not rolled back. -/
theorem C2_missing_first (base : Path) (fs : FS) (ps : List Patch) (hs : List Hunk)
    (hread : fs.read (base ++ ["missing.py"]) = none) :
    apply_unified_diff (⟨some ⟨some "missing.py", some "missing.py"⟩, hs⟩ :: ps) base fs
      = (false, fs) := by
  rw [apply_cons]
  exact runPatches_fail _ _ _ _ _ _ _ (step_missing _ _ _ _ _ _ rfl hread)

theorem C2_missing_first_witness :
    apply_unified_diff [⟨some ⟨some "missing.py", some "missing.py"⟩, []⟩] ["r"] [] = (false, []) :=
  C2_missing_first ["r"] [] [] [] (by decide)

/-! ### C3: path traversal out of the base directory -/

def evilPatch : Patch :=
  ⟨some ⟨some "/dev/null", some "../evil.py"⟩, [⟨0, 0, 1, 1, [⟨Tag.add, "x"⟩]⟩]⟩

/-- C3 counterexample: a creation patch whose reference is `../evil.py`
resolves to a path OUTSIDE the base directory `r/proj`, the call succeeds
and the file is written there — no patch rejection, no confinement. -/
theorem C3_counterexample :
    (apply_unified_diff [evilPatch] ["r", "proj"] []).1 = true ∧
    (apply_unified_diff [evilPatch] ["r", "proj"] []).2.read ["r", "evil.py"] = some "x\n" ∧
    ¬ ((["r", "proj"] : Path) <+: ["r", "evil.py"]) :=
  ⟨by decide, by decide, by decide⟩

theorem resolvePath_dotdot (b : Path) :
    resolvePath (b ++ ["proj"]) "../evil.py" = b ++ ["evil.py"] := by
  rw [show resolvePath (b ++ ["proj"]) "../evil.py"
        = resolveSeg (resolveSeg (b ++ ["proj"]) "..") "evil.py" from rfl]
  rw [show resolveSeg (b ++ ["proj"]) ".." = (b ++ ["proj"]).dropLast from if_pos rfl]
  rw [List.dropLast_concat]
  rw [resolveSeg, if_neg (by decide), if_neg (by decide)]

/-- C3 amended: `apply` performs no base-directory confinement check; for
every base directory `b ++ [~proj~]` a `../` reference resolves above the
base directory and the file is created there, with the call succeeding. -/
theorem C3_escape (b : Path) (s : String) :
    (apply_unified_diff [⟨some ⟨some "/dev/null", some "../evil.py"⟩,
        [⟨0, 0, 1, 1, [⟨Tag.add, s⟩]⟩]⟩] (b ++ ["proj"]) []).1 = true ∧
    (apply_unified_diff [⟨some ⟨some "/dev/null", some "../evil.py"⟩,
        [⟨0, 0, 1, 1, [⟨Tag.add, s⟩]⟩]⟩] (b ++ ["proj"]) []).2.read (b ++ ["evil.py"])
      = some (s ++ "\n") ∧
    ¬ ((b ++ ["proj"] : Path) <+: b ++ ["evil.py"]) := by
  have hplan : patchPlan (b ++ ["proj"]) ⟨some ⟨some "/dev/null", some "../evil.py"⟩,
      [⟨0, 0, 1, 1, [⟨Tag.add, s⟩]⟩]⟩ = some (b ++ ["evil.py"], true) := by
    rw [show patchPlan (b ++ ["proj"]) ⟨some ⟨some "/dev/null", some "../evil.py"⟩,
          [⟨0, 0, 1, 1, [⟨Tag.add, s⟩]⟩]⟩
        = some (resolvePath (b ++ ["proj"]) "../evil.py", true) from rfl]
    rw [resolvePath_dotdot]
  have happ : applyHunks [⟨0, 0, 1, 1, [⟨Tag.add, s⟩]⟩] (pySplitlines "") = some [s] := rfl
  have hread : FS.read [] (b ++ ["evil.py"]) = none := rfl
  rw [apply_cons]
  rw [runPatches_cont _ _ _ _ _ _ _ _ (step_create_ok _ _ _ _ _ _ _ hplan hread happ)]
  rw [runPatches_nil]
  refine ⟨rfl, ?_, ?_⟩
  · rw [FS.read_write_self]
    rfl
  · rintro ⟨t, ht⟩
    rw [List.append_assoc] at ht
    have h2 := List.append_cancel_left ht
    simp at h2

/-! ### C4: delete classification does not delete -/

def goneFS : FS := [(["r", "gone.py"], "x\n")]

def gonePatch : Patch :=
  ⟨some ⟨some "gone.py", some "/dev/null"⟩, [⟨1, 1, 0, 0, [⟨Tag.delete, "x"⟩]⟩]⟩

/-- C4 counterexample: a delete-classified patch whose hunks apply cleanly
returns success but the target file still exists afterwards — the code
writes the joined (empty) output plus one separator instead of unlinking. -/
theorem C4_counterexample :
    (apply_unified_diff [gonePatch] ["r"] goneFS).1 = true ∧
    (apply_unified_diff [gonePatch] ["r"] goneFS).2.read ["r", "gone.py"] = some "\n" :=
  ⟨by decide, by decide⟩

/-- C4 amended: for every delete-classified patch whose hunks apply
cleanly (producing the empty output), the call succeeds and the target
file REMAINS on disk with content a single line separator; the file is
never removed. -/
theorem C4_delete_leaves_file (base : Path) (fs : FS) (hs : List Hunk) (c : String)
    (hread : fs.read (base ++ ["gone.py"]) = some c)
    (happ : applyHunks hs (pySplitlines c) = some []) :
    (apply_unified_diff [⟨some ⟨some "gone.py", some "/dev/null"⟩, hs⟩] base fs).1 = true ∧
    (apply_unified_diff [⟨some ⟨some "gone.py", some "/dev/null"⟩, hs⟩] base fs).2.read
        (base ++ ["gone.py"]) = some "\n" := by
  have hplan : patchPlan base ⟨some ⟨some "gone.py", some "/dev/null"⟩, hs⟩
      = some (base ++ ["gone.py"], false) := rfl
  rw [apply_cons]
  rw [runPatches_cont _ _ _ _ _ _ _ _ (step_exists_ok _ _ _ _ _ _ _ _ _ hplan hread happ)]
  rw [runPatches_nil]
  exact ⟨rfl, by rw [FS.read_write_self]; rfl⟩


theorem C4_delete_leaves_file_witness :
    (apply_unified_diff [⟨some ⟨some "gone.py", some "/dev/null"⟩,
        [⟨1, 1, 0, 0, [⟨Tag.delete, "x"⟩]⟩]⟩] ["r"] goneFS).1 = true ∧
    (apply_unified_diff [⟨some ⟨some "gone.py", some "/dev/null"⟩,
        [⟨1, 1, 0, 0, [⟨Tag.delete, "x"⟩]⟩]⟩] ["r"] goneFS).2.read
        (["r"] ++ ["gone.py"]) = some "\n" :=
  C4_delete_leaves_file ["r"] goneFS [⟨1, 1, 0, 0, [⟨Tag.delete, "x"⟩]⟩] "x\n"
    (by decide) (by decide)

/-! ### C7: backup artifacts are not transaction-scoped and are left behind -/

def appFS : FS := [(["r", "app.py"], "a\n")]

def appPatch : Patch :=
  ⟨some ⟨some "app.py", some "app.py"⟩, [⟨1, 1, 1, 1, [⟨Tag.delete, "a"⟩, ⟨Tag.add, "b"⟩]⟩]⟩

/-- C7 counterexample: after a SUCCESSFUL call the backup artifact
`.akita/backups/app.py.bak` is still on disk — backup artifacts are not
removed on the success path before the call returns. -/
theorem C7_counterexample :
    (apply_unified_diff [appPatch] ["r"] appFS).1 = true ∧
    (apply_unified_diff [appPatch] ["r"] appFS).2.read ["r", ".akita", "backups", "app.py.bak"]
      = some "a\n" :=
  ⟨by decide, by decide⟩

/-- C7 amended: the backup artifact of a target is keyed only by the
target basename (`<base>/.akita/backups/<name>.bak`, shared across
transactions and colliding for same-named files of one diff), and on the
success path it is left on disk, still holding the pre-call content, when
the call returns. -/
theorem C7_backup_left (base : Path) (fs : FS) (hs : List Hunk) (c : String) (out : List String)
    (hread : fs.read (base ++ ["f.py"]) = some c)
    (happ : applyHunks hs (pySplitlines c) = some out) :
    (apply_unified_diff [⟨some ⟨some "f.py", some "f.py"⟩, hs⟩] base fs).1 = true ∧
    (apply_unified_diff [⟨some ⟨some "f.py", some "f.py"⟩, hs⟩] base fs).2.read
        (base ++ [".akita", "backups", "f.py.bak"]) = some c := by
  have hplan : patchPlan base ⟨some ⟨some "f.py", some "f.py"⟩, hs⟩
      = some (base ++ ["f.py"], false) := rfl
  rw [apply_cons]
  rw [runPatches_cont _ _ _ _ _ _ _ _ (step_exists_ok _ _ _ _ _ _ _ _ _ hplan hread happ)]
  rw [runPatches_nil]
  have hbf : (base ++ [".akita", "backups"]) ++ [lastName (base ++ ["f.py"]) ++ ".bak"]
      = base ++ [".akita", "backups", "f.py.bak"] := by
    rw [lastName_concat, List.append_assoc]
    rfl
  refine ⟨rfl, ?_⟩
  rw [hbf]
  rw [FS.read_write_ne _ _ _ _ (append_cancel_ne base _ _ (by decide))]
  rw [FS.read_write_self]

theorem C7_backup_left_witness :
    (FS.read [(["r", "f.py"], "v\n")] (["r"] ++ ["f.py"]) = some "v\n" ∧
      applyHunks [⟨1, 1, 1, 1, [⟨Tag.delete, "v"⟩, ⟨Tag.add, "w"⟩]⟩] (pySplitlines "v\n")
        = some ["w"]) ∧
    ((apply_unified_diff [⟨some ⟨some "f.py", some "f.py"⟩,
        [⟨1, 1, 1, 1, [⟨Tag.delete, "v"⟩, ⟨Tag.add, "w"⟩]⟩]⟩] ["r"] [(["r", "f.py"], "v\n")]).1
        = true ∧
     (apply_unified_diff [⟨some ⟨some "f.py", some "f.py"⟩,
        [⟨1, 1, 1, 1, [⟨Tag.delete, "v"⟩, ⟨Tag.add, "w"⟩]⟩]⟩] ["r"] [(["r", "f.py"], "v\n")]).2.read
        (["r"] ++ [".akita", "backups", "f.py.bak"]) = some "v\n") :=
  ⟨⟨by decide, by decide⟩,
   C7_backup_left ["r"] [(["r", "f.py"], "v\n")] [⟨1, 1, 1, 1, [⟨Tag.delete, "v"⟩, ⟨Tag.add, "w"⟩]⟩]
     "v\n" ["w"] (by decide) (by decide)⟩

/-! ### C1: atomicity fails under backup basename collision -/

def fooPatch1 : Patch :=
  ⟨some ⟨some "d1/foo", some "d1/foo"⟩, [⟨1, 1, 1, 1, [⟨Tag.delete, "A"⟩, ⟨Tag.add, "A2"⟩]⟩]⟩

def fooPatch2 : Patch :=
  ⟨some ⟨some "d2/foo", some "d2/foo"⟩, [⟨1, 1, 1, 1, [⟨Tag.delete, "X"⟩, ⟨Tag.add, "Y"⟩]⟩]⟩

def fooFS : FS := [(["r", "d1", "foo"], "A\n"), (["r", "d2", "foo"], "B\n")]

/-- C1: evaluation of the code at the failing input.  A two-patch diff
whose targets share the basename `foo`; only the second patch's hunk
context fails to match, yet after the failed call the touched file
`d1/foo` holds `B\n` — the pre-call content of `d2/foo` — instead of its
own pre-call content `A\n`.  Both snapshots use the single backup key
`foo.bak` (diff.py line 58 keys backups by `target_file.name` only), so
the second snapshot overwrote the first and the rollback handler restored
the wrong bytes, contradicting the atomicity the code's own docstring and
test suite promise. -/
theorem C1_backup_collision :
    (apply_unified_diff [fooPatch1, fooPatch2] ["r"] fooFS).1 = false ∧
    fooFS.read ["r", "d1", "foo"] = some "A\n" ∧
    (apply_unified_diff [fooPatch1, fooPatch2] ["r"] fooFS).2.read ["r", "d1", "foo"]
      = some "B\n" :=
  ⟨by decide, by decide, by decide⟩

/-! ### C6: rollback order -/

/-- Modelled from the spec: rollback in REVERSE mutation order (spec
section 4.3 step 4), for comparison with the code's forward loop. -/
def rollback_spec (fs : FS) (bks : Backups) : FS :=
  rollback fs bks.reverse

/-- Modelled from the spec: the patch loop with the spec's reverse-order
rollback substituted for the code's, for comparison. -/
def runPatchesRev (base bdir : Path) : List Patch → FS → Backups → Bool × FS
  | [], fs, _ => (true, fs)
  | p :: ps, fs, bks =>
    match step base bdir p fs bks with
    | StepOut.cont fs1 bks1 => runPatchesRev base bdir ps fs1 bks1
    | StepOut.fail fs1 => (false, fs1)
    | StepOut.raise fs1 bks1 => (false, rollback_spec fs1 bks1)

/-- Modelled from the spec: the applier with reverse-order rollback. -/
def apply_unified_diff_rev (patches : List Patch) (base : Path) (fs : FS) : Bool × FS :=
  if patches.isEmpty then (false, fs)
  else runPatchesRev base (base ++ [".akita", "backups"]) patches fs []

/-- C6 counterexample: on the colliding-basename scenario the failed call
leaves `d1/foo` with the shared backup artifact's content `B\n` (first
recorded entry restored first), while the same call under the spec's
reverse-order rollback would leave `A2\n` there: the code's restoration
order is forward, not reverse. -/
theorem C6_counterexample :
    (apply_unified_diff [fooPatch1, fooPatch2] ["r"] fooFS).2.read ["r", "d1", "foo"]
      = some "B\n" ∧
    (apply_unified_diff_rev [fooPatch1, fooPatch2] ["r"] fooFS).2.read ["r", "d1", "foo"]
      = some "A2\n" :=
  ⟨by decide, by decide⟩

/-- C6 amended: the rollback loop iterates the recorded backup store in
FORWARD mutation order: with two entries sharing one backup artifact, the
first-recorded target is restored first (consuming the artifact) and the
later entry is left unrestored. -/
theorem C6_forward_order (fs : FS) (t1 t2 b : Path) (c : String)
    (hne1 : t1 ≠ b) (hne2 : t2 ≠ b) (hne3 : t2 ≠ t1)
    (hread : fs.read b = some c) :
    (rollback fs [(t1, some b), (t2, some b)]).read t1 = some c ∧
    (rollback fs [(t1, some b), (t2, some b)]).read t2 = fs.read t2 := by
  have e1 : rollback fs [(t1, some b), (t2, some b)]
      = rollback ((fs.write t1 c).del b) [(t2, some b)] := by
    rw [show rollback fs [(t1, some b), (t2, some b)]
          = rollback (match fs.read b with
                      | some c => (fs.write t1 c).del b
                      | none => fs) [(t2, some b)] from rfl]
    rw [hread]
  have e2 : ((fs.write t1 c).del b).read b = none := FS.read_del_self _ _
  have e3 : rollback ((fs.write t1 c).del b) [(t2, some b)] = (fs.write t1 c).del b := by
    rw [show rollback ((fs.write t1 c).del b) [(t2, some b)]
          = rollback (match ((fs.write t1 c).del b).read b with
                      | some c2 => ((((fs.write t1 c).del b).write t2 c2).del b)
                      | none => (fs.write t1 c).del b) [] from rfl]
    rw [e2]
    rfl
  rw [e1, e3]
  constructor
  · rw [FS.read_del_ne _ _ _ hne1, FS.read_write_self]
  · rw [FS.read_del_ne _ _ _ hne2, FS.read_write_ne _ _ _ _ hne3]

theorem C6_forward_order_witness :
    ((["a1"] : Path) ≠ ["bk"] ∧ (["a2"] : Path) ≠ ["bk"] ∧ (["a2"] : Path) ≠ ["a1"] ∧
      FS.read [(["bk"], "Z")] ["bk"] = some "Z") ∧
    ((rollback [(["bk"], "Z")] [(["a1"], some ["bk"]), (["a2"], some ["bk"])]).read ["a1"]
        = some "Z" ∧
      (rollback [(["bk"], "Z")] [(["a1"], some ["bk"]), (["a2"], some ["bk"])]).read ["a2"]
        = FS.read [(["bk"], "Z")] ["a2"]) :=
  ⟨⟨by decide, by decide, by decide, by decide⟩,
   C6_forward_order [(["bk"], "Z")] ["a1"] ["a2"] ["bk"] "Z"
     (by decide) (by decide) (by decide) (by decide)⟩

end Akita
